import Mathlib

/-!
Verification of the pairwise affinity-matrix computations in the
vectorization-etudes repository.

The repository implements, in two notebooks, three variants of the same
computation: given a tensor `u` of `N` two-dimensional points, produce the
`N × N` matrix with entry `(i, j)` equal to `exp (-0.25 * dist (u i) (u j))`,
where `dist` is the Euclidean distance.

We embed the tensor programs shallowly:

* a tensor of shape `N × d` is a `List (List α)` (each inner list a point);
* the element-wise primitives used by the notebooks (`-`, `pow_(2)`, `sum`,
  `sqrt_`, `mul_(-0.25)`, `exp_`, `torch.dist`) are collected in a structure
  `TOps α` of abstract scalar operations, so that theorems quantifying over
  `TOps` hold for every interpretation of the primitives (in particular for
  every floating-point backend interpretation, which is what makes the
  bit-identity claims meaningful);
* the structure is instantiated at `ℝ` (exact real semantics, with
  `Real.sqrt` and `Real.exp`) for the analytic claims, and at `Int` (with
  mock `sqrt`/`exp`) for decidable witnesses of the structural claims;
* the `Etude1.ipynb` variants, which take a caller-supplied size `N` and can
  raise indexing / shape errors, are embedded in the `Except` monad;
* the in-place mutation behaviour (`pow_`, `sqrt_`, `mul_`, `exp_`,
  `result[i,j] = ...`) is modelled by a store of tensor values addressed by
  ids, with programs written as explicit state passing, so that the
  frame property (the input tensor is never written) is a real theorem.
-/

/-- The scalar primitives used by the notebook computations, kept abstract so
that equivalence theorems hold for any backend interpretation (any
floating-point precision, or exact reals). -/
structure TOps (α : Type) where
  zero : α
  sub : α → α → α
  sq : α → α
  add : α → α → α
  sqrt : α → α
  mul : α → α → α
  negQuarter : α
  exp : α → α

variable {α : Type}

/-- `torch.sum` over the trailing dimension of one point: torch reduces a
nonempty list of addends pairwise left-to-right; an empty reduction gives 0. -/
def sumList (ops : TOps α) : List α → α
  | [] => ops.zero
  | x :: xs => xs.foldl ops.add x

/-- `torch.dist(p, q)` (default `p=2`): the Euclidean norm of `p - q`, i.e.
the square root of the sum of squared coordinate differences (modelled from
the torch documentation of `torch.dist`; its internals are outside the
repository). -/
def torchDist (ops : TOps α) (p q : List α) : α :=
  ops.sqrt (sumList ops ((List.zipWith ops.sub p q).map ops.sq))

/-- `naive(u)` from the main notebook: nested loops filling `result[i, j]`
with `torch.exp(-0.25 * torch.dist(u[i], u[j]))`.  The value-level result is
the matrix of those entries. -/
def naive (ops : TOps α) (u : List (List α)) : List (List α) :=
  u.map (fun p => u.map (fun q => ops.exp (ops.mul ops.negQuarter (torchDist ops p q))))

/-- The broadcast subtraction `u_.permute((1, 0, 2)) - u_` of
`fully_vectorized`: position `(i, j)` holds the coordinate-wise difference
`u[i] - u[j]`. -/
def bcastSub (ops : TOps α) (u : List (List α)) : List (List (List α)) :=
  u.map (fun a => u.map (fun b => List.zipWith ops.sub a b))

/-- Element-wise map over a rank-2 tensor. -/
def mapMat (f : α → α) (m : List (List α)) : List (List α) :=
  m.map (fun r => r.map f)

/-- Element-wise map over a rank-3 tensor (`A_.pow_(2)` acts like this). -/
def mapCube (f : α → α) (c : List (List (List α))) : List (List (List α)) :=
  c.map (fun m => m.map (fun r => r.map f))

/-- `.sum(dim=2)` on an `N × N × d` tensor. -/
def sumDim2 (ops : TOps α) (c : List (List (List α))) : List (List α) :=
  c.map (fun m => m.map (sumList ops))

/-- `fully_vectorized(u)` from the main notebook: broadcast subtraction,
then the bulk pipeline `.pow_(2).sum(dim=2).sqrt_().mul_(-0.25).exp_()`. -/
def fully_vectorized (ops : TOps α) (u : List (List α)) : List (List α) :=
  mapMat ops.exp
    (mapMat (fun x => ops.mul x ops.negQuarter)
      (mapMat ops.sqrt
        (sumDim2 ops
          (mapCube ops.sq (bcastSub ops u)))))

/-- The row computation of `one_dim_vectorized`:
`du = u[i] - u` followed by `du.pow_(2).sum(dim=1).sqrt_().mul_(-0.25).exp_()`. -/
def rowPipe (ops : TOps α) (p : List α) (u : List (List α)) : List α :=
  (((((u.map (fun b => List.zipWith ops.sub p b)).map
      (fun d => d.map ops.sq)).map
        (sumList ops)).map
          ops.sqrt).map
            (fun x => ops.mul x ops.negQuarter)).map
              ops.exp

/-- `one_dim_vectorized(u)` from the main notebook: one loop over rows, each
row produced by the bulk row pipeline. -/
def one_dim_vectorized (ops : TOps α) (u : List (List α)) : List (List α) :=
  u.map (fun p => rowPipe ops p u)

/-- An `N × 2` point set, as the notebooks use, written as a list of pairs;
`toRows` renders it as the corresponding tensor rows. -/
def toRows (u : List (α × α)) : List (List α) :=
  u.map (fun p => [p.1, p.2])

/-- Matrix entry `(i, j)`, with an explicit default for out-of-range access. -/
def entry (A : List (List α)) (d : α) (i j : ℕ) : α :=
  (A.getD i []).getD j d

/-- Concrete integer interpretation of the primitives (with mock `sqrt` and
`exp`), used to evaluate the structural theorems on concrete inputs. -/
def intOps : TOps Int where
  zero := 0
  sub := fun a b => a - b
  sq := fun x => x * x
  add := fun a b => a + b
  sqrt := fun x => x
  mul := fun a b => a * b
  negQuarter := -1
  exp := fun x => x

/-- Exact real-number interpretation of the primitives. -/
noncomputable def realOps : TOps ℝ where
  zero := 0
  sub := fun a b => a - b
  sq := fun x => x ^ 2
  add := fun a b => a + b
  sqrt := Real.sqrt
  mul := fun a b => a * b
  negQuarter := -0.25
  exp := Real.exp

/-- The fully vectorized pipeline produces exactly the matrix of per-pair
values `exp (dist (u i) (u j) * (-0.25))`. -/
theorem fully_vectorized_eq (ops : TOps α) (u : List (List α)) :
    fully_vectorized ops u =
      u.map (fun p => u.map (fun q =>
        ops.exp (ops.mul (torchDist ops p q) ops.negQuarter))) := by
  simp [fully_vectorized, mapMat, mapCube, sumDim2, bcastSub, torchDist,
    List.map_map, Function.comp_def]

/-- The one-loop pipeline produces exactly the same matrix of per-pair
values. -/
theorem one_dim_vectorized_eq (ops : TOps α) (u : List (List α)) :
    one_dim_vectorized ops u =
      u.map (fun p => u.map (fun q =>
        ops.exp (ops.mul (torchDist ops p q) ops.negQuarter))) := by
  simp [one_dim_vectorized, rowPipe, torchDist, List.map_map, Function.comp_def]

theorem entry_map_grid (f : List α → List α → α) (u : List (List α)) (d : α)
    (i j : ℕ) (hi : i < u.length) (hj : j < u.length) :
    entry (u.map (fun p => u.map (fun q => f p q))) d i j = f u[i] u[j] := by
  simp [entry, List.getD_eq_getElem?_getD, List.getElem?_map,
    List.getElem?_eq_getElem, hi, hj]

/-- **C1**: for every `N × 2` point set `u` (any `N ≥ 0`) the three variants
`naive`, `one_dim_vectorized` and `fully_vectorized` return element-wise
identical `N × N` matrices under any single backend interpretation `ops` of
the scalar primitives — even though `naive` computes each distance with
`torch.dist` while the vectorized variants use the
subtract–square–sum–sqrt–scale–exp pipeline.  The only fact about the
backend that is used is commutativity of scalar multiplication by `-0.25`
(`naive` writes `-0.25 * d`, the pipelines write `d * (-0.25)`), which holds
in every IEEE floating-point format as well as in `ℝ`. -/
theorem variants_agree_elementwise (ops : TOps α)
    (hc : ∀ x, ops.mul ops.negQuarter x = ops.mul x ops.negQuarter)
    (u : List (α × α)) :
    naive ops (toRows u) = fully_vectorized ops (toRows u) ∧
    one_dim_vectorized ops (toRows u) = fully_vectorized ops (toRows u) := by
  refine ⟨?_, ?_⟩ <;>
    simp [naive, fully_vectorized_eq, one_dim_vectorized_eq, hc]

/-- Witness for C1: the agreement theorem evaluated on the concrete two-point
set `(0,0), (3,4)` with the integer interpretation of the primitives. -/
theorem variants_agree_elementwise_witness :
    naive intOps (toRows [((0 : Int), 0), (3, 4)]) =
        fully_vectorized intOps (toRows [((0 : Int), 0), (3, 4)]) ∧
      one_dim_vectorized intOps (toRows [((0 : Int), 0), (3, 4)]) =
        fully_vectorized intOps (toRows [((0 : Int), 0), (3, 4)]) :=
  variants_agree_elementwise intOps (fun x => Int.mul_comm (-1) x)
    [((0 : Int), 0), (3, 4)]

theorem naive_entry_real (u : List (ℝ × ℝ)) (i j : ℕ)
    (hi : i < u.length) (hj : j < u.length) :
    entry (naive realOps (toRows u)) 0 i j =
      Real.exp (-0.25 *
        Real.sqrt ((u[i].1 - u[j].1) ^ 2 + (u[i].2 - u[j].2) ^ 2)) := by
  have hi' : i < (toRows u).length := by simpa [toRows] using hi
  have hj' : j < (toRows u).length := by simpa [toRows] using hj
  rw [naive, entry_map_grid _ _ _ _ _ hi' hj']
  simp [toRows, torchDist, sumList, realOps]

/-- **C2**: over the exact real interpretation, entry `(i, j)` of `naive u`
is `exp (-0.25 * d(u i, u j))` with `d` the square root of the sum of the
squared coordinate differences. -/
theorem naive_entry_spec (u : List (ℝ × ℝ)) (i j : ℕ)
    (hi : i < u.length) (hj : j < u.length) :
    entry (naive realOps (toRows u)) 0 i j =
      Real.exp (-0.25 *
        Real.sqrt ((u[i].1 - u[j].1) ^ 2 + (u[i].2 - u[j].2) ^ 2)) :=
  naive_entry_real u i j hi hj

/-- Witness for C2: the entry formula evaluated at the two points
`(0,0)` and `(4,0)`, entry `(0, 1)`. -/
theorem naive_entry_spec_witness :
    entry (naive realOps (toRows [((0 : ℝ), 0), (4, 0)])) 0 0 1 =
      Real.exp (-0.25 * Real.sqrt (((0 : ℝ) - 4) ^ 2 + ((0 : ℝ) - 0) ^ 2)) := by
  have h := naive_entry_spec [((0 : ℝ), 0), (4, 0)] 0 1 (by simp) (by simp)
  simpa using h

theorem fully_entry_real (u : List (ℝ × ℝ)) (i j : ℕ)
    (hi : i < u.length) (hj : j < u.length) :
    entry (fully_vectorized realOps (toRows u)) 0 i j =
      Real.exp (Real.sqrt ((u[i].1 - u[j].1) ^ 2 + (u[i].2 - u[j].2) ^ 2) * -0.25) := by
  have hi' : i < (toRows u).length := by simpa [toRows] using hi
  have hj' : j < (toRows u).length := by simpa [toRows] using hj
  rw [fully_vectorized_eq, entry_map_grid _ _ _ _ _ hi' hj']
  simp [toRows, torchDist, sumList, realOps]

theorem one_dim_entry_real (u : List (ℝ × ℝ)) (i j : ℕ)
    (hi : i < u.length) (hj : j < u.length) :
    entry (one_dim_vectorized realOps (toRows u)) 0 i j =
      Real.exp (Real.sqrt ((u[i].1 - u[j].1) ^ 2 + (u[i].2 - u[j].2) ^ 2) * -0.25) := by
  have hi' : i < (toRows u).length := by simpa [toRows] using hi
  have hj' : j < (toRows u).length := by simpa [toRows] using hj
  rw [one_dim_vectorized_eq, entry_map_grid _ _ _ _ _ hi' hj']
  simp [toRows, torchDist, sumList, realOps]

/-- **C3**: over the exact real interpretation every diagonal entry of each
of the three variants equals `1` (the self-distance is `0` and
`exp 0 = 1`); in particular a single-point input yields the `1 × 1` matrix
`[[1]]` for each variant. -/
theorem diagonal_entries_one (u : List (ℝ × ℝ)) (i : ℕ) (hi : i < u.length) :
    entry (naive realOps (toRows u)) 0 i i = 1 ∧
    entry (fully_vectorized realOps (toRows u)) 0 i i = 1 ∧
    entry (one_dim_vectorized realOps (toRows u)) 0 i i = 1 ∧
    (u.length = 1 →
      naive realOps (toRows u) = [[1]] ∧
      fully_vectorized realOps (toRows u) = [[1]] ∧
      one_dim_vectorized realOps (toRows u) = [[1]]) := by
  refine ⟨?_, ?_, ?_, ?_⟩
  · rw [naive_entry_real u i i hi hi]
    simp
  · rw [fully_entry_real u i i hi hi]
    simp
  · rw [one_dim_entry_real u i i hi hi]
    simp
  · intro hl
    obtain ⟨p, rfl⟩ := List.length_eq_one.mp hl
    refine ⟨?_, ?_, ?_⟩ <;>
      simp [naive, fully_vectorized_eq, one_dim_vectorized_eq, toRows,
        torchDist, sumList, realOps]

/-- Witness for C3: a one-point set, whose single (diagonal) entry is `1`
and whose result matrices are all `[[1]]`. -/
theorem diagonal_entries_one_witness :
    entry (naive realOps (toRows [((5 : ℝ), 7)])) 0 0 0 = 1 ∧
    entry (fully_vectorized realOps (toRows [((5 : ℝ), 7)])) 0 0 0 = 1 ∧
    entry (one_dim_vectorized realOps (toRows [((5 : ℝ), 7)])) 0 0 0 = 1 ∧
    ([((5 : ℝ), 7)].length = 1 →
      naive realOps (toRows [((5 : ℝ), 7)]) = [[1]] ∧
      fully_vectorized realOps (toRows [((5 : ℝ), 7)]) = [[1]] ∧
      one_dim_vectorized realOps (toRows [((5 : ℝ), 7)]) = [[1]]) :=
  diagonal_entries_one [((5 : ℝ), 7)] 0 (by simp)

/-- **C4**: over the exact real interpretation the matrices produced by the
three variants are symmetric: entry `(i, j)` equals entry `(j, i)`. -/
theorem matrix_symmetric (u : List (ℝ × ℝ)) (i j : ℕ)
    (hi : i < u.length) (hj : j < u.length) :
    entry (naive realOps (toRows u)) 0 i j = entry (naive realOps (toRows u)) 0 j i ∧
    entry (fully_vectorized realOps (toRows u)) 0 i j =
      entry (fully_vectorized realOps (toRows u)) 0 j i ∧
    entry (one_dim_vectorized realOps (toRows u)) 0 i j =
      entry (one_dim_vectorized realOps (toRows u)) 0 j i := by
  have key : (u[i].1 - u[j].1) ^ 2 + (u[i].2 - u[j].2) ^ 2 =
      (u[j].1 - u[i].1) ^ 2 + (u[j].2 - u[i].2) ^ 2 := by ring
  refine ⟨?_, ?_, ?_⟩
  · rw [naive_entry_real u i j hi hj, naive_entry_real u j i hj hi, key]
  · rw [fully_entry_real u i j hi hj, fully_entry_real u j i hj hi, key]
  · rw [one_dim_entry_real u i j hi hj, one_dim_entry_real u j i hj hi, key]

/-- Witness for C4: symmetry evaluated on the two-point set `(0,0), (3,4)`
at indices `(0, 1)` and `(1, 0)`. -/
theorem matrix_symmetric_witness :
    entry (naive realOps (toRows [((0 : ℝ), 0), (3, 4)])) 0 0 1 =
      entry (naive realOps (toRows [((0 : ℝ), 0), (3, 4)])) 0 1 0 ∧
    entry (fully_vectorized realOps (toRows [((0 : ℝ), 0), (3, 4)])) 0 0 1 =
      entry (fully_vectorized realOps (toRows [((0 : ℝ), 0), (3, 4)])) 0 1 0 ∧
    entry (one_dim_vectorized realOps (toRows [((0 : ℝ), 0), (3, 4)])) 0 0 1 =
      entry (one_dim_vectorized realOps (toRows [((0 : ℝ), 0), (3, 4)])) 0 1 0 :=
  matrix_symmetric [((0 : ℝ), 0), (3, 4)] 0 1 (by simp) (by simp)

theorem exp_scaled_sqrt_mem (s : ℝ) :
    0 < Real.exp (Real.sqrt s * -0.25) ∧ Real.exp (Real.sqrt s * -0.25) ≤ 1 := by
  refine ⟨Real.exp_pos _, ?_⟩
  have hs : 0 ≤ Real.sqrt s := Real.sqrt_nonneg s
  calc Real.exp (Real.sqrt s * -0.25) ≤ Real.exp 0 := by
        apply Real.exp_le_exp.mpr
        nlinarith
    _ = 1 := Real.exp_zero

/-- **C5**: over the exact real interpretation every entry of each of the
three variants lies in the half-open interval `(0, 1]`: the exponent
`-0.25 * sqrt s` is nonpositive, so the entry is a positive number at most
`exp 0 = 1`. -/
theorem entries_in_unit_range (u : List (ℝ × ℝ)) (i j : ℕ)
    (hi : i < u.length) (hj : j < u.length) :
    (0 < entry (naive realOps (toRows u)) 0 i j ∧
      entry (naive realOps (toRows u)) 0 i j ≤ 1) ∧
    (0 < entry (fully_vectorized realOps (toRows u)) 0 i j ∧
      entry (fully_vectorized realOps (toRows u)) 0 i j ≤ 1) ∧
    (0 < entry (one_dim_vectorized realOps (toRows u)) 0 i j ∧
      entry (one_dim_vectorized realOps (toRows u)) 0 i j ≤ 1) := by
  refine ⟨?_, ?_, ?_⟩
  · rw [naive_entry_real u i j hi hj, show
      (-0.25 : ℝ) * Real.sqrt ((u[i].1 - u[j].1) ^ 2 + (u[i].2 - u[j].2) ^ 2) =
        Real.sqrt ((u[i].1 - u[j].1) ^ 2 + (u[i].2 - u[j].2) ^ 2) * -0.25 from
      mul_comm _ _]
    exact exp_scaled_sqrt_mem _
  · rw [fully_entry_real u i j hi hj]
    exact exp_scaled_sqrt_mem _
  · rw [one_dim_entry_real u i j hi hj]
    exact exp_scaled_sqrt_mem _

/-- Witness for C5: the range property evaluated on the two-point set
`(0,0), (3,4)` at entry `(0, 1)`. -/
theorem entries_in_unit_range_witness :
    (0 < entry (naive realOps (toRows [((0 : ℝ), 0), (3, 4)])) 0 0 1 ∧
      entry (naive realOps (toRows [((0 : ℝ), 0), (3, 4)])) 0 0 1 ≤ 1) ∧
    (0 < entry (fully_vectorized realOps (toRows [((0 : ℝ), 0), (3, 4)])) 0 0 1 ∧
      entry (fully_vectorized realOps (toRows [((0 : ℝ), 0), (3, 4)])) 0 0 1 ≤ 1) ∧
    (0 < entry (one_dim_vectorized realOps (toRows [((0 : ℝ), 0), (3, 4)])) 0 0 1 ∧
      entry (one_dim_vectorized realOps (toRows [((0 : ℝ), 0), (3, 4)])) 0 0 1 ≤ 1) :=
  entries_in_unit_range [((0 : ℝ), 0), (3, 4)] 0 1 (by simp) (by simp)

/-- **C6**: the empty point set (shape `0 × 2`) is a valid input: each of
the three variants evaluates without failure to the empty (`0 × 0`)
matrix, under any interpretation of the primitives. -/
theorem empty_input_empty_matrix (ops : TOps α) :
    naive ops (toRows ([] : List (α × α))) = [] ∧
    fully_vectorized ops (toRows ([] : List (α × α))) = [] ∧
    one_dim_vectorized ops (toRows ([] : List (α × α))) = [] :=
  ⟨rfl, rfl, rfl⟩

/-- **C8**: for the two points `(0,0)` and `(4,0)` (distance `4`) each
variant's off-diagonal entries equal `exp (-1)`; for the coincident pair
`(0,0), (0,0)` each variant returns the all-ones `2 × 2` matrix. -/
theorem known_value_scenario :
    (entry (naive realOps (toRows [((0 : ℝ), 0), (4, 0)])) 0 0 1 = Real.exp (-1) ∧
      entry (naive realOps (toRows [((0 : ℝ), 0), (4, 0)])) 0 1 0 = Real.exp (-1) ∧
      entry (fully_vectorized realOps (toRows [((0 : ℝ), 0), (4, 0)])) 0 0 1 = Real.exp (-1) ∧
      entry (fully_vectorized realOps (toRows [((0 : ℝ), 0), (4, 0)])) 0 1 0 = Real.exp (-1) ∧
      entry (one_dim_vectorized realOps (toRows [((0 : ℝ), 0), (4, 0)])) 0 0 1 = Real.exp (-1) ∧
      entry (one_dim_vectorized realOps (toRows [((0 : ℝ), 0), (4, 0)])) 0 1 0 = Real.exp (-1)) ∧
    (naive realOps (toRows [((0 : ℝ), 0), (0, 0)]) = [[1, 1], [1, 1]] ∧
      fully_vectorized realOps (toRows [((0 : ℝ), 0), (0, 0)]) = [[1, 1], [1, 1]] ∧
      one_dim_vectorized realOps (toRows [((0 : ℝ), 0), (0, 0)]) = [[1, 1], [1, 1]]) := by
  constructor
  · refine ⟨?_, ?_, ?_, ?_, ?_, ?_⟩ <;>
      · simp [naive, fully_vectorized_eq, one_dim_vectorized_eq, toRows,
          torchDist, sumList, realOps, entry]
        norm_num
  · refine ⟨?_, ?_, ?_⟩ <;>
      simp [naive, fully_vectorized_eq, one_dim_vectorized_eq, toRows,
        torchDist, sumList, realOps]

theorem variants_shape (ops : TOps α) (u : List (List α)) :
    (naive ops u).map List.length = List.replicate u.length u.length ∧
    (fully_vectorized ops u).map List.length = List.replicate u.length u.length ∧
    (one_dim_vectorized ops u).map List.length = List.replicate u.length u.length := by
  refine ⟨?_, ?_, ?_⟩ <;>
    simp [naive, fully_vectorized_eq, one_dim_vectorized_eq, List.map_map,
      Function.comp_def, List.eq_replicate_iff]

/-- Counterexample for C7: on the malformed `2 × 3` input
`[[0,0,0],[3,4,12]]` none of the three variants fails — each silently
returns a complete `2 × 2` matrix (values shown under the integer
interpretation of the primitives, where the 3-coordinate distance is
`9 + 16 + 144 = 169`). -/
theorem no_shape_validation_cex :
    naive intOps [[0, 0, 0], [3, 4, 12]] = [[0, -169], [-169, 0]] ∧
    fully_vectorized intOps [[0, 0, 0], [3, 4, 12]] = [[0, -169], [-169, 0]] ∧
    one_dim_vectorized intOps [[0, 0, 0], [3, 4, 12]] = [[0, -169], [-169, 0]] := by
  decide

/-- **C7 (amended)**: the variants perform no input validation at all: an
`N × d` input with `d ≠ 2` (wrong coordinate dimensionality) is accepted
and each variant silently returns a full `N × N` matrix computed from the
`d`-dimensional distances — no error is raised and no computation is
withheld.  (Ragged input is not representable as a tensor, so only the
rectangular malformed case arises.) -/
theorem no_shape_validation (ops : TOps α) (u : List (List α)) :
    (naive ops u).map List.length = List.replicate u.length u.length ∧
    (fully_vectorized ops u).map List.length = List.replicate u.length u.length ∧
    (one_dim_vectorized ops u).map List.length = List.replicate u.length u.length :=
  variants_shape ops u

/-- Runtime errors raised by the `Etude1.ipynb` variants: indexing a tensor
out of range, and assigning a row of the wrong size. -/
inductive TErr where
  | indexError : TErr
  | shapeError : TErr
deriving DecidableEq

/-- `naive(u, N)` from `Etude1.ipynb`: the loops run over the caller-supplied
`N`, and each cell reads `u[i]` and `u[j]`, failing with an index error at
the first out-of-range access. -/
def naiveN (ops : TOps α) (u : List (List α)) (N : ℕ) :
    Except TErr (List (List α)) :=
  (List.range N).mapM (fun i =>
    (List.range N).mapM (fun j =>
      match u[i]? with
      | none => Except.error TErr.indexError
      | some p =>
        match u[j]? with
        | none => Except.error TErr.indexError
        | some q => Except.ok (ops.exp (ops.mul ops.negQuarter (torchDist ops p q)))))

/-- `one_dim_vectorized(u, N)` from `Etude1.ipynb`: the loop runs over the
caller-supplied `N`; iteration `i` reads `u[i]` (index error when out of
range) and assigns the length-`u.length` pipeline row into the length-`N`
row `result[i,:]` — which torch accepts when the sizes match, broadcasts
when the row has a single element, and otherwise rejects with a size
mismatch. -/
def one_dim_vectorizedN (ops : TOps α) (u : List (List α)) (N : ℕ) :
    Except TErr (List (List α)) :=
  (List.range N).mapM (fun i =>
    match u[i]? with
    | none => Except.error TErr.indexError
    | some p =>
      let row := rowPipe ops p u
      if row.length = N then Except.ok row
      else if row.length = 1 then Except.ok (List.replicate N (row.headD ops.zero))
      else Except.error TErr.shapeError)

/-- `fully_vectorized(u, N)` from `Etude1.ipynb`: the body never mentions the
size argument; it is the broadcast pipeline on `u` alone and cannot fail. -/
def fully_vectorizedN (ops : TOps α) (u : List (List α)) (_N : ℕ) :
    Except TErr (List (List α)) :=
  Except.ok (fully_vectorized ops u)

theorem mapM_ok_of_forall {β γ : Type} (f : β → Except TErr γ) (g : β → γ) :
    ∀ l : List β, (∀ a ∈ l, f a = Except.ok (g a)) →
      l.mapM f = Except.ok (l.map g) := by
  intro l
  induction l with
  | nil => intro _; rfl
  | cons a as ih =>
    intro h
    rw [List.mapM_cons, h a (by simp), List.map_cons,
      ih (fun b hb => h b (by simp [hb]))]
    rfl

theorem mapM_error_head {β γ : Type} (f : β → Except TErr γ) (e : TErr)
    (a : β) (l : List β) (h : f a = Except.error e) :
    (a :: l).mapM f = Except.error e := by
  rw [List.mapM_cons, h]
  rfl

theorem mapM_error_of_all {β γ : Type} (f : β → Except TErr γ) (e : TErr) :
    ∀ l : List β,
      (∀ a ∈ l, (∃ c, f a = Except.ok c) ∨ f a = Except.error e) →
      (∃ a ∈ l, f a = Except.error e) → l.mapM f = Except.error e := by
  intro l
  induction l with
  | nil =>
    intro _ hex
    simp at hex
  | cons a as ih =>
    intro hall hex
    rcases hall a (by simp) with ⟨c, hc⟩ | hc
    · have htail : as.mapM f = Except.error e := by
        apply ih (fun b hb => hall b (by simp [hb]))
        rcases hex with ⟨b, hb, hfb⟩
        rcases List.mem_cons.mp hb with rfl | hb'
        · rw [hc] at hfb
          simp at hfb
        · exact ⟨b, hb', hfb⟩
      rw [List.mapM_cons, hc, htail]
      rfl
    · exact mapM_error_head f e a as hc

theorem mapM_range_head_error {γ : Type} (f : ℕ → Except TErr γ) (e : TErr)
    (N : ℕ) (hN : 0 < N) (h : f 0 = Except.error e) :
    (List.range N).mapM f = Except.error e := by
  cases N with
  | zero => omega
  | succ n =>
    rw [List.range_succ_eq_map]
    exact mapM_error_head f e 0 _ h

theorem map_take_eq_map_range {β : Type} (g : List α → β) (u : List (List α))
    (N : ℕ) (h : N ≤ u.length) :
    (u.take N).map g = (List.range N).map (fun i => g (u.getD i [])) := by
  apply List.ext_getElem?
  intro n
  by_cases hn : n < N
  · have hu : n < u.length := by omega
    rw [List.getElem?_map, List.getElem?_map, List.getElem?_take, if_pos hn,
      List.getElem?_range hn, List.getElem?_eq_getElem hu]
    simp [List.getElem?_eq_getElem hu]
  · have h1 : ((u.take N).map g)[n]? = none := by
      apply List.getElem?_eq_none
      simp only [List.length_map, List.length_take]
      omega
    have h2 : (((List.range N).map (fun i => g (u.getD i [])))[n]?) = none := by
      apply List.getElem?_eq_none
      simp only [List.length_map, List.length_range]
      omega
    rw [h1, h2]

theorem rowPipe_length (ops : TOps α) (p : List α) (u : List (List α)) :
    (rowPipe ops p u).length = u.length := by
  simp [rowPipe]

theorem naiveN_trunc (ops : TOps α) (u : List (List α)) (N : ℕ)
    (h : N ≤ u.length) :
    naiveN ops u N = Except.ok (naive ops (u.take N)) := by
  have hcell : ∀ i ∈ List.range N, ∀ j ∈ List.range N,
      (match u[i]? with
        | none => Except.error TErr.indexError
        | some p =>
          match u[j]? with
          | none => Except.error TErr.indexError
          | some q =>
            Except.ok (ops.exp (ops.mul ops.negQuarter (torchDist ops p q)))) =
        Except.ok (ops.exp (ops.mul ops.negQuarter
          (torchDist ops (u.getD i []) (u.getD j [])))) := by
    intro i hi j hj
    have hiu : i < u.length := by
      have := List.mem_range.mp hi
      omega
    have hju : j < u.length := by
      have := List.mem_range.mp hj
      omega
    rw [List.getElem?_eq_getElem hiu, List.getElem?_eq_getElem hju,
      List.getD_eq_getElem u [] hiu, List.getD_eq_getElem u [] hju]
  have hmain : naiveN ops u N = Except.ok ((List.range N).map (fun i =>
      (List.range N).map (fun j => ops.exp (ops.mul ops.negQuarter
        (torchDist ops (u.getD i []) (u.getD j [])))))) := by
    refine mapM_ok_of_forall _ _ _ ?_
    intro i hi
    exact mapM_ok_of_forall _ _ _ (fun j hj => hcell i hi j hj)
  rw [hmain]
  congr 1
  rw [naive, map_take_eq_map_range _ _ _ h]
  refine (List.map_congr_left ?_).symm
  intro i _
  exact map_take_eq_map_range _ _ _ h

theorem naiveN_index_err (ops : TOps α) (u : List (List α)) (N : ℕ)
    (h : u.length < N) :
    naiveN ops u N = Except.error TErr.indexError := by
  have hN : 0 < N := by omega
  unfold naiveN
  apply mapM_range_head_error _ _ _ hN
  by_cases h0 : 0 < u.length
  · apply mapM_error_of_all
    · intro j _
      by_cases hju : j < u.length
      · left
        refine ⟨ops.exp (ops.mul ops.negQuarter (torchDist ops u[0] u[j])), ?_⟩
        rw [List.getElem?_eq_getElem h0, List.getElem?_eq_getElem hju]
      · right
        rw [List.getElem?_eq_getElem h0, List.getElem?_eq_none (by omega)]
    · refine ⟨u.length, List.mem_range.mpr h, ?_⟩
      rw [List.getElem?_eq_getElem h0, List.getElem?_eq_none (le_refl _)]
  · apply mapM_error_of_all
    · intro j _
      right
      rw [List.getElem?_eq_none (by omega)]
    · refine ⟨0, List.mem_range.mpr hN, ?_⟩
      rw [List.getElem?_eq_none (by omega)]

theorem one_dimN_zero (ops : TOps α) (u : List (List α)) :
    one_dim_vectorizedN ops u 0 = Except.ok [] := rfl

theorem one_dimN_shape_err (ops : TOps α) (u : List (List α)) (N : ℕ)
    (hN : 0 < N) (hne : N ≠ u.length) (h2 : 2 ≤ u.length) :
    one_dim_vectorizedN ops u N = Except.error TErr.shapeError := by
  unfold one_dim_vectorizedN
  apply mapM_range_head_error _ _ _ hN
  have h0 : 0 < u.length := by omega
  rw [List.getElem?_eq_getElem h0]
  have hlen : (rowPipe ops u[0] u).length = u.length := rowPipe_length ops _ u
  show (if (rowPipe ops u[0] u).length = N then Except.ok (rowPipe ops u[0] u)
      else if (rowPipe ops u[0] u).length = 1 then
        Except.ok (List.replicate N ((rowPipe ops u[0] u).headD ops.zero))
      else Except.error TErr.shapeError) = Except.error TErr.shapeError
  rw [if_neg (by rw [hlen]; omega), if_neg (by rw [hlen]; omega)]

theorem one_dimN_index_err (ops : TOps α) (u : List (List α)) (N : ℕ)
    (h1 : u.length ≤ 1) (h : u.length < N) :
    one_dim_vectorizedN ops u N = Except.error TErr.indexError := by
  have hN : 0 < N := by omega
  unfold one_dim_vectorizedN
  by_cases h0 : 0 < u.length
  · have hM : u.length = 1 := by omega
    apply mapM_error_of_all
    · intro i _
      by_cases hiu : i < u.length
      · left
        rw [List.getElem?_eq_getElem hiu]
        refine ⟨List.replicate N ((rowPipe ops u[i] u).headD ops.zero), ?_⟩
        show (if (rowPipe ops u[i] u).length = N then Except.ok (rowPipe ops u[i] u)
            else if (rowPipe ops u[i] u).length = 1 then
              Except.ok (List.replicate N ((rowPipe ops u[i] u).headD ops.zero))
            else Except.error TErr.shapeError) =
          Except.ok (List.replicate N ((rowPipe ops u[i] u).headD ops.zero))
        rw [if_neg (by rw [rowPipe_length]; omega),
          if_pos (by rw [rowPipe_length]; omega)]
      · right
        rw [List.getElem?_eq_none (by omega)]
    · refine ⟨1, List.mem_range.mpr (by omega), ?_⟩
      rw [List.getElem?_eq_none (by omega)]
  · apply mapM_range_head_error _ _ _ hN
    rw [List.getElem?_eq_none (by omega)]

/-- Counterexample for C10: the claim says a caller of
`one_dim_vectorized(u, N)` passing `N` different from `u`'s length gets a
truncated result or an out-of-range index access *instead of a shape
error* — but for the `2 × 2` input `[[0,0],[1,1]]` with `N = 3` the row
assignment `result[i,:] = ...` receives a length-2 row for a length-3 slot
and fails precisely with a shape (size-mismatch) error. -/
theorem etude1_one_dim_shape_error_cex :
    one_dim_vectorizedN intOps [[0, 0], [1, 1]] 3 = Except.error TErr.shapeError := by
  rfl

/-- **C10 (amended)**: in the `Etude1.ipynb` variants, which take an explicit
size argument `N`, `fully_vectorized(u, N)` ignores `N` entirely — the
result is the same for any two values of `N` and its shape is `M × M`,
determined solely by `u` — whereas `naive(u, N)` and
`one_dim_vectorized(u, N)` size their result as `N × N` from the
caller-supplied `N`: `naive` returns a truncated result when `N ≤ M` and
fails with an out-of-range index access when `N > M`; `one_dim_vectorized`
with `N ≠ M` returns the empty matrix when `N = 0`, fails with a shape
(size-mismatch) error on the row assignment when `M ≥ 2`, and fails with an
out-of-range index access when `M ≤ 1 < N`.  (Only the `naive` clause of
the original claim survives unchanged; `one_dim_vectorized` does raise a
shape error in the generic case.) -/
theorem etude1_size_argument (ops : TOps α) (u : List (List α))
    (N N1 N2 : ℕ) :
    fully_vectorizedN ops u N1 = fully_vectorizedN ops u N2 ∧
    (fully_vectorized ops u).map List.length =
      List.replicate u.length u.length ∧
    (N ≤ u.length → naiveN ops u N = Except.ok (naive ops (u.take N))) ∧
    (u.length < N → naiveN ops u N = Except.error TErr.indexError) ∧
    one_dim_vectorizedN ops u 0 = Except.ok [] ∧
    (0 < N → N ≠ u.length → 2 ≤ u.length →
      one_dim_vectorizedN ops u N = Except.error TErr.shapeError) ∧
    (u.length ≤ 1 → u.length < N →
      one_dim_vectorizedN ops u N = Except.error TErr.indexError) := by
  refine ⟨rfl, (variants_shape ops u).2.1, fun h => naiveN_trunc ops u N h,
    fun h => naiveN_index_err ops u N h, one_dimN_zero ops u,
    fun hN hne h2 => one_dimN_shape_err ops u N hN hne h2,
    fun h1 h => one_dimN_index_err ops u N h1 h⟩

/-- Witness for C10: the amended behaviour evaluated on concrete inputs —
truncation of `naive` at `N = 1`, its index error at `N = 3`, the empty
`one_dim` result at `N = 0`, its shape error at `N = 3`, and its index
error on a single-row input at `N = 2`. -/
theorem etude1_size_argument_witness :
    fully_vectorizedN intOps [[0, 0], [1, 1]] 5 =
        fully_vectorizedN intOps [[0, 0], [1, 1]] 2 ∧
      naiveN intOps [[0, 0], [1, 1]] 1 =
        Except.ok (naive intOps ([[0, 0], [1, 1]].take 1)) ∧
      naiveN intOps [[0, 0], [1, 1]] 3 = Except.error TErr.indexError ∧
      one_dim_vectorizedN intOps [[0, 0], [1, 1]] 0 = Except.ok [] ∧
      one_dim_vectorizedN intOps [[0, 0], [1, 1]] 3 =
        Except.error TErr.shapeError ∧
      one_dim_vectorizedN intOps [[0]] 2 = Except.error TErr.indexError :=
  ⟨(etude1_size_argument intOps [[0, 0], [1, 1]] 0 5 2).1,
    (etude1_size_argument intOps [[0, 0], [1, 1]] 1 0 0).2.2.1 (by decide),
    (etude1_size_argument intOps [[0, 0], [1, 1]] 3 0 0).2.2.2.1 (by decide),
    (etude1_size_argument intOps [[0, 0], [1, 1]] 0 0 0).2.2.2.2.1,
    (etude1_size_argument intOps [[0, 0], [1, 1]] 3 0 0).2.2.2.2.2.1
      (by decide) (by decide) (by decide),
    (etude1_size_argument intOps [[0]] 2 0 0).2.2.2.2.2.2
      (by decide) (by decide)⟩

/-- A tensor stored on the torch heap: a rank-1, rank-2 or rank-3 value. -/
inductive TVal (α : Type) where
  | vec : List α → TVal α
  | mat : List (List α) → TVal α
  | ten3 : List (List (List α)) → TVal α
deriving DecidableEq

/-- An element-wise in-place operation (`pow_`, `sqrt_`, `mul_`, `exp_`)
applied to a stored tensor. -/
def TVal.emap (f : α → α) : TVal α → TVal α
  | .vec v => .vec (v.map f)
  | .mat m => .mat (m.map (fun r => r.map f))
  | .ten3 c => .ten3 (c.map (fun m => m.map (fun r => r.map f)))

/-- View a stored tensor as matrix rows (the input point set is a matrix). -/
def TVal.rows : TVal α → List (List α)
  | .mat m => m
  | _ => []

/-- View a stored tensor as a rank-3 value. -/
def TVal.cube : TVal α → List (List (List α))
  | .ten3 c => c
  | _ => []

/-- View a stored tensor as a rank-1 value. -/
def TVal.items : TVal α → List α
  | .vec v => v
  | _ => []

/-- The torch heap: tensors addressed by allocation index. -/
abbrev Store (α : Type) := List (TVal α)

/-- Read the tensor at id `i`. -/
def Store.read (s : Store α) (i : ℕ) : TVal α := s.getD i (TVal.vec [])

/-- Allocate a fresh tensor, returning the new store and the fresh id. -/
def Store.alloc (s : Store α) (v : TVal α) : Store α × ℕ := (s ++ [v], s.length)

/-- Overwrite the tensor at id `i` (an in-place update). -/
def Store.write (s : Store α) (i : ℕ) (v : TVal α) : Store α := s.set i v

/-- `naive(u)` as a store program: `torch.zeros(N, N)` allocates a fresh
result tensor; the nested loops update `result[i, j]` in place, reading
`u[i]` and `u[j]` from the store on every iteration; `u` itself is never
written.  Returns the final store and the result id. -/
def naiveProg (ops : TOps α) (s0 : Store α) (uid : ℕ) : Store α × ℕ :=
  let N := ((Store.read s0 uid).rows).length
  let a := Store.alloc s0 (TVal.mat (List.replicate N (List.replicate N ops.zero)))
  let s2 := (List.range N).foldl (fun s i =>
    (List.range N).foldl (fun t j =>
      let rows := (Store.read t uid).rows
      let x := ops.exp (ops.mul ops.negQuarter
        (torchDist ops (rows.getD i []) (rows.getD j [])))
      Store.write t a.2 (TVal.mat
        (((Store.read t a.2).rows).set i
          ((((Store.read t a.2).rows).getD i []).set j x)))) s) a.1
  (s2, a.2)

/-- `fully_vectorized(u)` as a store program: the reshape/permute views only
read `u`; the broadcast subtraction allocates the fresh rank-3 tensor `A_`;
`pow_` mutates `A_` in place; `sum(dim=2)` allocates a fresh matrix; and
`sqrt_`, `mul_`, `exp_` mutate that matrix in place. -/
def fullyProg (ops : TOps α) (s0 : Store α) (uid : ℕ) : Store α × ℕ :=
  let rows := (Store.read s0 uid).rows
  let a := Store.alloc s0 (TVal.ten3
    (rows.map (fun p => rows.map (fun q => List.zipWith ops.sub p q))))
  let s2 := Store.write a.1 a.2 ((Store.read a.1 a.2).emap ops.sq)
  let b := Store.alloc s2 (TVal.mat
    (((Store.read s2 a.2).cube).map (fun m => m.map (sumList ops))))
  let s4 := Store.write b.1 b.2 ((Store.read b.1 b.2).emap ops.sqrt)
  let s5 := Store.write s4 b.2
    ((Store.read s4 b.2).emap (fun x => ops.mul x ops.negQuarter))
  let s6 := Store.write s5 b.2 ((Store.read s5 b.2).emap ops.exp)
  (s6, b.2)

/-- `one_dim_vectorized(u)` as a store program: `torch.zeros(N, N)` allocates the result; each
`du = u[i] - u` and `du.pow_(2).sum(dim=1)` allocate fresh tensors; `pow_`
mutates `du`; `sqrt_`, `mul_`, `exp_` mutate the summed row; the row
assignment `result[i,:] = ...` mutates the result tensor; `u` is never
written. -/
def oneDimProg (ops : TOps α) (s0 : Store α) (uid : ℕ) : Store α × ℕ :=
  let N := ((Store.read s0 uid).rows).length
  let a := Store.alloc s0 (TVal.mat (List.replicate N (List.replicate N ops.zero)))
  let s2 := (List.range N).foldl (fun s i =>
    let rows := (Store.read s uid).rows
    let d := Store.alloc s (TVal.mat
      (rows.map (fun b => List.zipWith ops.sub (rows.getD i []) b)))
    let t2 := Store.write d.1 d.2 ((Store.read d.1 d.2).emap ops.sq)
    let e := Store.alloc t2 (TVal.vec
      (((Store.read t2 d.2).rows).map (sumList ops)))
    let t4 := Store.write e.1 e.2 ((Store.read e.1 e.2).emap ops.sqrt)
    let t5 := Store.write t4 e.2
      ((Store.read t4 e.2).emap (fun x => ops.mul x ops.negQuarter))
    let t6 := Store.write t5 e.2 ((Store.read t5 e.2).emap ops.exp)
    Store.write t6 a.2 (TVal.mat
      (((Store.read t6 a.2).rows).set i ((Store.read t6 e.2).items)))) a.1
  (s2, a.2)

/-- All store cells that existed initially are untouched. -/
def Pres (s0 t : Store α) : Prop :=
  s0.length ≤ t.length ∧ ∀ k, k < s0.length → t[k]? = s0[k]?

theorem pres_refl (s0 : Store α) : Pres s0 s0 :=
  ⟨le_refl _, fun _ _ => rfl⟩

theorem pres_alloc (s0 t : Store α) (v : TVal α) (h : Pres s0 t) :
    Pres s0 (Store.alloc t v).1 := by
  obtain ⟨h1, h2⟩ := h
  refine ⟨?_, ?_⟩
  · rw [Store.alloc]
    simp only [List.length_append, List.length_cons, List.length_nil]
    omega
  · intro k hk
    rw [Store.alloc]
    simp only
    rw [List.getElem?_append, if_pos (by omega : k < t.length)]
    exact h2 k hk

theorem pres_write (s0 t : Store α) (j : ℕ) (v : TVal α)
    (h : Pres s0 t) (hj : s0.length ≤ j) :
    Pres s0 (Store.write t j v) := by
  refine ⟨?_, ?_⟩
  · rw [Store.write, List.length_set]
    exact h.1
  · intro k hk
    rw [Store.write, List.getElem?_set_ne (by omega : j ≠ k)]
    exact h.2 k hk

theorem pres_foldl {β : Type} (s0 : Store α) (f : Store α → β → Store α)
    (hf : ∀ t b, Pres s0 t → Pres s0 (f t b)) :
    ∀ (l : List β) (t : Store α), Pres s0 t → Pres s0 (l.foldl f t) := by
  intro l
  induction l with
  | nil => intro t h; exact h
  | cons b bs ih => intro t h; exact ih (f t b) (hf t b h)

theorem naiveProg_pres (ops : TOps α) (s0 : Store α) (uid : ℕ) :
    Pres s0 (naiveProg ops s0 uid).1 := by
  simp only [naiveProg]
  apply pres_foldl s0 _ ?_ _ _ (pres_alloc s0 s0 _ (pres_refl s0))
  intro t i ht
  apply pres_foldl s0 _ ?_ _ _ ht
  intro t' j ht'
  exact pres_write s0 t' _ _ ht' (le_refl _)

theorem pres_alloc_id (s0 t : Store α) (v : TVal α) (h : Pres s0 t) :
    s0.length ≤ (Store.alloc t v).2 := h.1

theorem fullyProg_pres (ops : TOps α) (s0 : Store α) (uid : ℕ) :
    Pres s0 (fullyProg ops s0 uid).1 := by
  simp only [fullyProg]
  repeat'
    first
    | exact pres_refl s0
    | apply pres_write s0
    | apply pres_alloc s0
    | apply pres_alloc_id s0

theorem oneDimProg_pres (ops : TOps α) (s0 : Store α) (uid : ℕ) :
    Pres s0 (oneDimProg ops s0 uid).1 := by
  simp only [oneDimProg]
  apply pres_foldl s0 _ ?_ _ _ (pres_alloc s0 s0 _ (pres_refl s0))
  intro t i ht
  repeat'
    first
    | exact ht
    | exact pres_refl s0
    | apply pres_write s0
    | apply pres_alloc s0
    | apply pres_alloc_id s0

/-- **C9**: each of the three variants, run as a store program on a heap
containing the `N × 2` input tensor `u` at id `uid`, leaves the input
unchanged — after the call the tensor at `uid` still holds exactly the
coordinates of `u` — even though the vectorized variants apply in-place
operations (`pow_`, `sqrt_`, `mul_`, `exp_`) to their intermediate tensors:
those intermediates are freshly allocated, never aliased with `u`. -/
theorem input_unchanged_by_variants (ops : TOps α) (s : Store α) (uid : ℕ)
    (u : List (α × α)) (hid : uid < s.length)
    (hu : Store.read s uid = TVal.mat (toRows u)) :
    Store.read (naiveProg ops s uid).1 uid = TVal.mat (toRows u) ∧
    Store.read (fullyProg ops s uid).1 uid = TVal.mat (toRows u) ∧
    Store.read (oneDimProg ops s uid).1 uid = TVal.mat (toRows u) := by
  have key : ∀ t : Store α, Pres s t → Store.read t uid = Store.read s uid := by
    intro t ht
    rw [Store.read, Store.read, List.getD_eq_getElem?_getD,
      List.getD_eq_getElem?_getD, ht.2 uid hid]
  exact ⟨by rw [key _ (naiveProg_pres ops s uid), hu],
    by rw [key _ (fullyProg_pres ops s uid), hu],
    by rw [key _ (oneDimProg_pres ops s uid), hu]⟩

/-- Witness for C9: on a one-tensor heap holding the point set
`(1,2), (3,4)` at id `0`, all three programs leave that tensor intact. -/
theorem input_unchanged_by_variants_witness :
    Store.read (naiveProg intOps [TVal.mat (toRows [((1 : Int), 2), (3, 4)])] 0).1 0 =
        TVal.mat (toRows [((1 : Int), 2), (3, 4)]) ∧
      Store.read (fullyProg intOps [TVal.mat (toRows [((1 : Int), 2), (3, 4)])] 0).1 0 =
        TVal.mat (toRows [((1 : Int), 2), (3, 4)]) ∧
      Store.read (oneDimProg intOps [TVal.mat (toRows [((1 : Int), 2), (3, 4)])] 0).1 0 =
        TVal.mat (toRows [((1 : Int), 2), (3, 4)]) :=
  input_unchanged_by_variants intOps [TVal.mat (toRows [((1 : Int), 2), (3, 4)])] 0
    [((1 : Int), 2), (3, 4)] (by decide) (by decide)

theorem read_write_self (t : Store α) (j : ℕ) (v : TVal α) (h : j < t.length) :
    Store.read (Store.write t j v) j = v := by
  rw [Store.read, Store.write, List.getD_eq_getElem?_getD,
    List.getElem?_set_self h]
  rfl

theorem read_alloc_self (t : Store α) (v : TVal α) :
    Store.read (Store.alloc t v).1 (Store.alloc t v).2 = v := by
  rw [Store.read, Store.alloc, List.getD_eq_getElem?_getD,
    List.getElem?_concat_length]
  rfl

theorem write_length (t : Store α) (j : ℕ) (v : TVal α) :
    (Store.write t j v).length = t.length := by
  rw [Store.write, List.length_set]

theorem alloc_length (t : Store α) (v : TVal α) :
    (Store.alloc t v).1.length = t.length + 1 := by
  rw [Store.alloc]
  simp

/-- Sanity bridge between the store model and the value model: the result
tensor produced by the `fully_vectorized` store program holds exactly the
matrix computed by the pure `fully_vectorized` pipeline on the input rows. -/
theorem fullyProg_result (ops : TOps α) (s : Store α) (uid : ℕ) :
    Store.read (fullyProg ops s uid).1 (fullyProg ops s uid).2 =
      TVal.mat (fully_vectorized ops ((Store.read s uid).rows)) := by
  simp only [fullyProg]
  rw [read_write_self _ _ _ (by
      simp only [Store.alloc, Store.write, List.length_set, List.length_append,
        List.length_cons, List.length_nil]
      omega),
    read_write_self _ _ _ (by
      simp only [Store.alloc, Store.write, List.length_set, List.length_append,
        List.length_cons, List.length_nil]
      omega),
    read_write_self _ _ _ (by
      simp only [Store.alloc, Store.write, List.length_set, List.length_append,
        List.length_cons, List.length_nil]
      omega),
    read_alloc_self,
    read_write_self _ _ _ (by
      simp only [Store.alloc, Store.write, List.length_set, List.length_append,
        List.length_cons, List.length_nil]
      omega),
    read_alloc_self]
  simp [fully_vectorized, mapMat, mapCube, sumDim2, bcastSub, TVal.emap,
    TVal.cube, List.map_map, Function.comp_def]
